import Mathlib

/-!
# Verification of the slide-voice real-time voice session core

Shallow embedding of the voice-session core of the `slide-voice-ai`
frontend: the audio codec utilities (`arrayBufferToBase64`,
`base64ToInt16Array`), the capture pipeline's framing buffer
(`CaptureProcessor.process`), the playback scheduler (`playAudio`), and
the session state machine (`handleMessage`, `start`, `stop`, `cleanup`,
`ws.onclose`) from `VoiceSessionProvider`, together with the
presentation store's `goToSlide`.

Binary strings (the arguments and results of the platform's `btoa` and
`atob`) are modelled as lists of natural-number code points; JavaScript
numbers used for audio timing are modelled as exact rationals.
-/

namespace SlideVoice

/-! ## Audio codec utilities

`arrayBufferToBase64` turns the bytes of an `ArrayBuffer` into a binary
string via `String.fromCharCode` (the identity on byte values) and
base64-encodes it with the platform's `btoa`.  `base64ToInt16Array`
decodes with `atob`, rebuilds the byte array, and reinterprets the
buffer as little-endian signed 16-bit integers (`new Int16Array`
throws a `RangeError` when the byte length is odd, and `atob` throws on
input that is not valid base64).  `btoa`/`atob` are the platform's
standard (RFC 4648 / forgiving) base64 on byte-valued code points. -/

/-- ASCII code of the base64 alphabet character for a sextet value
(`A`-`Z`, `a`-`z`, `0`-`9`, `+`, `/`). -/
def sextetCode (n : Nat) : Nat :=
  if n < 26 then 65 + n
  else if n < 52 then 97 + (n - 26)
  else if n < 62 then 48 + (n - 52)
  else if n = 62 then 43
  else 47

/-- Inverse of the base64 alphabet: map an ASCII code back to its
sextet value; `none` for characters outside the alphabet (including the
padding character `=`, code 61). -/
def codeSextet (c : Nat) : Option Nat :=
  if 65 ≤ c ∧ c ≤ 90 then some (c - 65)
  else if 97 ≤ c ∧ c ≤ 122 then some (c - 97 + 26)
  else if 48 ≤ c ∧ c ≤ 57 then some (c - 48 + 52)
  else if c = 43 then some 62
  else if c = 47 then some 63
  else none

/-- The platform's `btoa` on a byte-valued binary string: standard
base64 with `=` padding (code 61), three bytes per four output
characters. -/
def btoa : List Nat → List Nat
  | [] => []
  | [a] => [sextetCode (a / 4), sextetCode (a % 4 * 16), 61, 61]
  | [a, b] => [sextetCode (a / 4), sextetCode (a % 4 * 16 + b / 16),
               sextetCode (b % 16 * 4), 61]
  | a :: b :: c :: rest =>
      sextetCode (a / 4) :: sextetCode (a % 4 * 16 + b / 16) ::
      sextetCode (b % 16 * 4 + c / 64) :: sextetCode (c % 64) :: btoa rest

/-- The platform's `atob`: decode four base64 characters to three
bytes, accepting a padded or unpadded final group; `none` models the
`InvalidCharacterError` thrown on input that is not valid base64. -/
def atob : List Nat → Option (List Nat)
  | [] => some []
  | c1 :: c2 :: c3 :: c4 :: rest =>
      if c3 = 61 ∧ c4 = 61 ∧ rest = [] then do
        let s1 ← codeSextet c1
        let s2 ← codeSextet c2
        some [s1 * 4 + s2 / 16]
      else if c4 = 61 ∧ rest = [] then do
        let s1 ← codeSextet c1
        let s2 ← codeSextet c2
        let s3 ← codeSextet c3
        some [s1 * 4 + s2 / 16, s2 % 16 * 16 + s3 / 4]
      else do
        let s1 ← codeSextet c1
        let s2 ← codeSextet c2
        let s3 ← codeSextet c3
        let s4 ← codeSextet c4
        let ds ← atob rest
        some ((s1 * 4 + s2 / 16) :: (s2 % 16 * 16 + s3 / 4) ::
              (s3 % 4 * 64 + s4) :: ds)
  | [c1, c2] => do
      let s1 ← codeSextet c1
      let s2 ← codeSextet c2
      some [s1 * 4 + s2 / 16]
  | [c1, c2, c3] => do
      let s1 ← codeSextet c1
      let s2 ← codeSextet c2
      let s3 ← codeSextet c3
      some [s1 * 4 + s2 / 16, s2 % 16 * 16 + s3 / 4]
  | [_] => none

/-- Source `arrayBufferToBase64(buffer)`: read the buffer as bytes, build a
binary string character by character, and `btoa` it. -/
def arrayBufferToBase64 (bytes : List Nat) : List Nat := btoa bytes

/-- The little-endian bytes of one element of an `Int16Array` buffer:
the sample reduced modulo 2^16, low byte first. -/
def int16ToBytes (s : Int) : List Nat :=
  let u := (s % 65536).toNat
  [u % 256, u / 256]

/-- The backing buffer of an `Int16Array` built from a list of signed
16-bit samples: each sample contributes two little-endian bytes. -/
def int16ListToBytes (xs : List Int) : List Nat := xs.flatMap int16ToBytes

/-- Reinterpret a byte buffer as little-endian signed 16-bit integers;
`none` models the `RangeError` `new Int16Array(buffer)` throws when the
byte length is odd. -/
def bytesToInt16 : List Nat → Option (List Int)
  | [] => some []
  | [_] => none
  | lo :: hi :: rest => do
      let tail ← bytesToInt16 rest
      let u := lo + 256 * hi
      some ((if u < 32768 then (u : Int) else (u : Int) - 65536) :: tail)

/-- Source `base64ToInt16Array(base64)`: `atob`, rebuild the byte array, and
view the buffer as an `Int16Array`; `none` models the exceptions thrown
on invalid base64 or an odd decoded byte length. -/
def base64ToInt16Array (base64 : List Nat) : Option (List Int) := do
  let bytes ← atob base64
  bytesToInt16 bytes

lemma codeSextet_sextetCode : ∀ n < 64, codeSextet (sextetCode n) = some n := by
  decide

lemma sextetCode_ne_61 (n : Nat) : sextetCode n ≠ 61 := by
  unfold sextetCode
  split <;> try omega
  split <;> try omega
  split <;> try omega
  split <;> omega

lemma atob_pad2 (c1 c2 : Nat) :
    atob [c1, c2, 61, 61] =
      (codeSextet c1).bind fun s1 => (codeSextet c2).bind fun s2 =>
      some [s1 * 4 + s2 / 16] := by
  simp [atob]

lemma atob_pad1 (c1 c2 c3 : Nat) (h3 : c3 ≠ 61) :
    atob [c1, c2, c3, 61] =
      (codeSextet c1).bind fun s1 => (codeSextet c2).bind fun s2 =>
      (codeSextet c3).bind fun s3 =>
      some [s1 * 4 + s2 / 16, s2 % 16 * 16 + s3 / 4] := by
  simp [atob, h3]

lemma atob_group (c1 c2 c3 c4 : Nat) (rest : List Nat)
    (h3 : c3 ≠ 61) (h4 : c4 ≠ 61) :
    atob (c1 :: c2 :: c3 :: c4 :: rest) =
      (codeSextet c1).bind fun s1 => (codeSextet c2).bind fun s2 =>
      (codeSextet c3).bind fun s3 => (codeSextet c4).bind fun s4 =>
      (atob rest).bind fun ds =>
      some ((s1 * 4 + s2 / 16) :: (s2 % 16 * 16 + s3 / 4) ::
            (s3 % 4 * 64 + s4) :: ds) := by
  simp [atob, h3, h4]

lemma atob_btoa (bs : List Nat) (h : ∀ x ∈ bs, x < 256) :
    atob (btoa bs) = some bs := by
  induction bs using btoa.induct with
  | case1 => rfl
  | case2 a =>
      have ha : a < 256 := h a (by simp)
      show atob [sextetCode (a / 4), sextetCode (a % 4 * 16), 61, 61] = some [a]
      rw [atob_pad2, codeSextet_sextetCode _ (by omega),
        codeSextet_sextetCode _ (by omega)]
      simp only [Option.bind_eq_bind, Option.some_bind, Option.some.injEq,
        List.cons.injEq, and_true]
      omega
  | case3 a b =>
      have ha : a < 256 := h a (by simp)
      have hb : b < 256 := h b (by simp)
      show atob [sextetCode (a / 4), sextetCode (a % 4 * 16 + b / 16),
        sextetCode (b % 16 * 4), 61] = some [a, b]
      rw [atob_pad1 _ _ _ (sextetCode_ne_61 _), codeSextet_sextetCode _ (by omega),
        codeSextet_sextetCode _ (by omega), codeSextet_sextetCode _ (by omega)]
      simp only [Option.bind_eq_bind, Option.some_bind, Option.some.injEq,
        List.cons.injEq, and_true]
      constructor <;> omega
  | case4 a b c rest ih =>
      have ha : a < 256 := h a (by simp)
      have hb : b < 256 := h b (by simp)
      have hc : c < 256 := h c (by simp)
      have hrest : ∀ x ∈ rest, x < 256 := by
        intro x hx; exact h x (by simp [hx])
      show atob (sextetCode (a / 4) :: sextetCode (a % 4 * 16 + b / 16) ::
        sextetCode (b % 16 * 4 + c / 64) :: sextetCode (c % 64) :: btoa rest) =
        some (a :: b :: c :: rest)
      rw [atob_group _ _ _ _ _ (sextetCode_ne_61 _) (sextetCode_ne_61 _),
        codeSextet_sextetCode _ (by omega), codeSextet_sextetCode _ (by omega),
        codeSextet_sextetCode _ (by omega), codeSextet_sextetCode _ (by omega),
        ih hrest]
      simp only [Option.bind_eq_bind, Option.some_bind, Option.some.injEq,
        List.cons.injEq, and_true]
      refine ⟨by omega, by omega, by omega⟩

lemma int16ToBytes_lt (s : Int) : ∀ x ∈ int16ToBytes s, x < 256 := by
  intro x hx
  unfold int16ToBytes at hx
  simp only [List.mem_cons, List.mem_singleton, List.not_mem_nil, or_false] at hx
  rcases hx with h | h <;> omega

lemma bytesToInt16_int16ListToBytes (xs : List Int)
    (h : ∀ x ∈ xs, -32768 ≤ x ∧ x ≤ 32767) :
    bytesToInt16 (int16ListToBytes xs) = some xs := by
  induction xs with
  | nil => rfl
  | cons s rest ih =>
      have hs := h s (by simp)
      have hrest : ∀ x ∈ rest, -32768 ≤ x ∧ x ≤ 32767 := by
        intro x hx; exact h x (by simp [hx])
      have : int16ListToBytes (s :: rest) =
          (s % 65536).toNat % 256 :: (s % 65536).toNat / 256 ::
          int16ListToBytes rest := by
        simp [int16ListToBytes, int16ToBytes]
      rw [this]
      unfold bytesToInt16
      rw [ih hrest]
      simp only [Option.bind_eq_bind, Option.some_bind, Option.some.injEq,
        List.cons.injEq, and_true]
      omega

/-- C1.  Codec round-trip: for every sequence of signed 16-bit samples
`x` (any length, including 0 and 1),
`base64ToInt16Array (arrayBufferToBase64 x.buffer)` yields exactly `x`
in the integer domain. -/
theorem codec_round_trip (xs : List Int)
    (h : ∀ x ∈ xs, -32768 ≤ x ∧ x ≤ 32767) :
    base64ToInt16Array (arrayBufferToBase64 (int16ListToBytes xs)) = some xs := by
  unfold base64ToInt16Array arrayBufferToBase64
  rw [atob_btoa _ (by
    intro x hx
    rcases List.mem_flatMap.mp hx with ⟨s, _, hxs⟩
    exact int16ToBytes_lt s x hxs)]
  exact bytesToInt16_int16ListToBytes xs h

/-- Witness for C1 at concrete inputs of length 0, 1 and 4 (covering
both signs and both rails of the 16-bit range). -/
theorem codec_round_trip_witness :
    (∀ x ∈ ([] : List Int), -32768 ≤ x ∧ x ≤ 32767) ∧
    base64ToInt16Array (arrayBufferToBase64 (int16ListToBytes [])) = some [] ∧
    (∀ x ∈ [(-32768 : Int)], -32768 ≤ x ∧ x ≤ 32767) ∧
    base64ToInt16Array (arrayBufferToBase64 (int16ListToBytes [-32768])) =
      some [-32768] ∧
    base64ToInt16Array (arrayBufferToBase64 (int16ListToBytes [1, -1, 32767, 0])) =
      some [1, -1, 32767, 0] :=
  ⟨by decide, codec_round_trip [] (by decide),
   by decide, codec_round_trip [-32768] (by decide),
   codec_round_trip [1, -1, 32767, 0] (by decide)⟩

/-! ## Capture pipeline framing

`CaptureProcessor` (the audio-worklet source registered by
`startAudioCapture`) accumulates each callback's raw float samples into
`this.buffer` and, while the buffer holds at least `BUFFER_SIZE = 4800`
samples, splices off exactly one frame from the front and emits it
(after per-sample conversion to 16-bit PCM).  Raw samples are modelled
as exact rationals. -/

/-- Constant `BUFFER_SIZE`: the fixed capture frame size in samples. -/
def BUFFER_SIZE : Nat := 4800

/-- The worklet's `while (this.buffer.length >= BUFFER_SIZE)` loop:
repeatedly splice one frame of `BUFFER_SIZE` samples off the front of
the staging buffer, returning the emitted frames in order and the
leftover staged samples. -/
def drain (buf : List ℚ) : List (List ℚ) × List ℚ :=
  if _h : BUFFER_SIZE ≤ buf.length then
    let chunk := buf.take BUFFER_SIZE
    let r := drain (buf.drop BUFFER_SIZE)
    (chunk :: r.1, r.2)
  else ([], buf)
termination_by buf.length
decreasing_by
  simp only [List.length_drop]
  have : 0 < BUFFER_SIZE := by decide
  omega

namespace CaptureProcessor

/-- Per-sample conversion from a raw float sample to 16-bit PCM
(worklet lines `const s = Math.max(-1, Math.min(1, chunk[i]))` and
`pcm16[i] = s < 0 ? s * 0x8000 : s * 0x7fff`, with the `Int16Array`
store truncating toward zero). -/
def floatToPcm16 (x : ℚ) : Int :=
  let s := max (-1) (min 1 x)
  if s < 0 then ⌈s * 32768⌉ else ⌊s * 32767⌋

/-- One call of `CaptureProcessor.process`: push the callback's raw
samples onto the staging buffer, then splice off every complete frame.
Returns the emitted raw frames (in emission order) and the new staging
buffer. -/
def process (buf : List ℚ) (samples : List ℚ) : List (List ℚ) × List ℚ :=
  drain (buf ++ samples)

/-- The PCM16 payloads posted to the worklet port for one `process`
call: each spliced raw frame converted sample by sample. -/
def postedFrames (buf : List ℚ) (samples : List ℚ) : List (List Int) :=
  (process buf samples).1.map (List.map floatToPcm16)

/-- A whole sequence of `process` calls starting from a given staging
buffer: all emitted frames in emission order, and the final staging
buffer. -/
def processAll (buf : List ℚ) : List (List ℚ) → List (List ℚ) × List ℚ
  | [] => ([], buf)
  | p :: ps =>
      let r := process buf p
      let r' := processAll r.2 ps
      (r.1 ++ r'.1, r'.2)

end CaptureProcessor

lemma drain_spec (buf : List ℚ) :
    (drain buf).1.flatten ++ (drain buf).2 = buf
    ∧ (∀ f ∈ (drain buf).1, f.length = BUFFER_SIZE)
    ∧ (drain buf).2.length < BUFFER_SIZE := by
  induction buf using drain.induct with
  | case1 buf h ih =>
      rw [drain, dif_pos h]
      refine ⟨?_, ?_, ih.2.2⟩
      · simp only [List.flatten_cons, List.append_assoc, ih.1,
          List.take_append_drop]
      · intro f hf
        rcases List.mem_cons.mp hf with rfl | hf
        · simp [List.length_take]; omega
        · exact ih.2.1 f hf
  | case2 buf h =>
      rw [drain, dif_neg h]
      exact ⟨by simp, by simp, Nat.lt_of_not_le h⟩

lemma flatten_length_const (fs : List (List ℚ)) (n : Nat)
    (h : ∀ f ∈ fs, f.length = n) : fs.flatten.length = n * fs.length := by
  induction fs with
  | nil => simp
  | cons f rest ih =>
      simp only [List.flatten_cons, List.length_append, List.length_cons,
        h f (by simp), ih (fun g hg => h g (by simp [hg]))]
      ring

lemma processAll_spec (ps : List (List ℚ)) : ∀ buf : List ℚ,
    buf.length < BUFFER_SIZE →
    (CaptureProcessor.processAll buf ps).1.flatten ++
        (CaptureProcessor.processAll buf ps).2 = buf ++ ps.flatten
    ∧ (∀ f ∈ (CaptureProcessor.processAll buf ps).1, f.length = BUFFER_SIZE)
    ∧ (CaptureProcessor.processAll buf ps).2.length < BUFFER_SIZE := by
  induction ps with
  | nil =>
      intro buf hb
      exact ⟨by simp [CaptureProcessor.processAll], by simp [CaptureProcessor.processAll], hb⟩
  | cons p ps ih =>
      intro buf hb
      have hd := drain_spec (buf ++ p)
      have hrec := ih (drain (buf ++ p)).2 hd.2.2
      simp only [CaptureProcessor.processAll, CaptureProcessor.process]
      refine ⟨?_, ?_, hrec.2.2⟩
      · calc ((drain (buf ++ p)).1 ++ (CaptureProcessor.processAll (drain (buf ++ p)).2 ps).1).flatten ++
              (CaptureProcessor.processAll (drain (buf ++ p)).2 ps).2
            = (drain (buf ++ p)).1.flatten ++
              ((CaptureProcessor.processAll (drain (buf ++ p)).2 ps).1.flatten ++
               (CaptureProcessor.processAll (drain (buf ++ p)).2 ps).2) := by
              simp [List.flatten_append, List.append_assoc]
          _ = (drain (buf ++ p)).1.flatten ++ ((drain (buf ++ p)).2 ++ ps.flatten) := by
              rw [hrec.1]
          _ = buf ++ (p ++ ps.flatten) := by
              rw [← List.append_assoc, hd.1, List.append_assoc]
          _ = buf ++ (p :: ps).flatten := by simp
      · intro f hf
        rcases List.mem_append.mp hf with hf | hf
        · exact hd.2.1 f hf
        · exact hrec.2.1 f hf

/-- C2.  Framing: starting from an empty staging buffer, over any
sequence of raw-sample pushes the capture processor emits exactly
`⌊total samples / 4800⌋` frames, every emitted frame has exactly 4800
samples, their concatenation in emission order is precisely the prefix
of the concatenated input covered by whole frames, and the leftover
partial-frame samples (the remaining suffix) stay staged for the next
cycle. -/
theorem capture_framing (ps : List (List ℚ)) :
    (CaptureProcessor.processAll [] ps).1.length = ps.flatten.length / BUFFER_SIZE
    ∧ (∀ f ∈ (CaptureProcessor.processAll [] ps).1, f.length = BUFFER_SIZE)
    ∧ (CaptureProcessor.processAll [] ps).1.flatten =
        ps.flatten.take (BUFFER_SIZE * (CaptureProcessor.processAll [] ps).1.length)
    ∧ (CaptureProcessor.processAll [] ps).2 =
        ps.flatten.drop (BUFFER_SIZE * (CaptureProcessor.processAll [] ps).1.length) := by
  have h := processAll_spec ps [] (by decide)
  simp only [List.nil_append] at h
  have hlen : (CaptureProcessor.processAll [] ps).1.flatten.length =
      BUFFER_SIZE * (CaptureProcessor.processAll [] ps).1.length :=
    flatten_length_const _ _ h.2.1
  have htot : BUFFER_SIZE * (CaptureProcessor.processAll [] ps).1.length +
      (CaptureProcessor.processAll [] ps).2.length = ps.flatten.length := by
    have := congrArg List.length h.1
    simpa [hlen] using this
  refine ⟨?_, h.2.1, ?_, ?_⟩
  · have hrem := h.2.2
    simp only [BUFFER_SIZE] at htot hrem ⊢
    omega
  · rw [← h.1, List.take_append_of_le_length (by omega), ← hlen,
      List.take_length]
  · rw [← h.1]
    rw [← hlen, List.drop_left]

/-! ## Playback scheduler

The scheduling kernel of `playAudio` (lines 52-54 of the session
provider): `startTime = Math.max(ctx.currentTime, nextPlayTimeRef.current)`,
`source.start(startTime)`, `nextPlayTimeRef.current = startTime +
buffer.duration`, where `buffer.duration = frameLength / SAMPLE_RATE`.
Device times and durations are modelled as exact rationals. -/

/-- Constant `SAMPLE_RATE`: the fixed playback/capture sample rate in Hz. -/
def SAMPLE_RATE : Nat := 24000

/-- Schedule a sequence of frames through `playAudio`'s cursor logic.
Input: the current `nextPlayTimeRef` cursor and, per frame, the device
clock value `ctx.currentTime` at its arrival and its duration.  Output,
per frame: `(now, duration, startTime)` with
`startTime = max now cursor`, the cursor advancing to
`startTime + duration`. -/
def scheduleFrames (cursor : ℚ) : List (ℚ × ℚ) → List (ℚ × ℚ × ℚ)
  | [] => []
  | (now, dur) :: rest =>
      (now, dur, max now cursor) :: scheduleFrames (max now cursor + dur) rest

lemma scheduleFrames_start_ge_now (fs : List (ℚ × ℚ)) : ∀ cursor : ℚ,
    ∀ t ∈ scheduleFrames cursor fs, t.1 ≤ t.2.2 := by
  induction fs with
  | nil => intro cursor t ht; simp [scheduleFrames] at ht
  | cons x rest ih =>
      intro cursor t ht
      obtain ⟨n, d⟩ := x
      simp only [scheduleFrames, List.mem_cons] at ht
      rcases ht with rfl | ht
      · exact le_max_left n cursor
      · exact ih _ t ht

lemma scheduleFrames_chain (fs : List (ℚ × ℚ)) : ∀ cursor : ℚ,
    List.Chain' (fun a b => a.2.2 + a.2.1 ≤ b.2.2) (scheduleFrames cursor fs) := by
  induction fs with
  | nil => intro cursor; simp [scheduleFrames]
  | cons x rest ih =>
      intro cursor
      obtain ⟨n, d⟩ := x
      cases rest with
      | nil => simp [scheduleFrames]
      | cons y rest' =>
          obtain ⟨n2, d2⟩ := y
          simp only [scheduleFrames]
          rw [List.chain'_cons]
          exact ⟨le_max_right n2 (max n cursor + d),
            by simpa [scheduleFrames] using ih (max n cursor + d)⟩

/-- C3.  Playback monotonicity: for any frame sequence with positive
durations, every scheduled start time is at least the device clock's
"now" at its schedule time, and each start time is at least the
previous start time plus the previous frame's duration; in particular
two 9600-sample frames at 24 kHz whose second arrival is not after the
first frame's scheduled end are scheduled exactly 400 ms (= 2/5 s)
apart. -/
theorem playback_monotonicity (cursor : ℚ) (frames : List (ℚ × ℚ))
    (hpos : ∀ f ∈ frames, 0 < f.2) (n1 n2 : ℚ)
    (hb2b : n2 ≤ max n1 cursor + 9600 / (SAMPLE_RATE : ℚ)) :
    (∀ t ∈ scheduleFrames cursor frames, t.1 ≤ t.2.2)
    ∧ List.Chain' (fun a b => a.2.2 + a.2.1 ≤ b.2.2) (scheduleFrames cursor frames)
    ∧ (scheduleFrames cursor
        [(n1, 9600 / (SAMPLE_RATE : ℚ)), (n2, 9600 / (SAMPLE_RATE : ℚ))]).map
          (fun t => t.2.2) =
        [max n1 cursor, max n1 cursor + 400 / 1000] := by
  refine ⟨scheduleFrames_start_ge_now frames cursor,
    scheduleFrames_chain frames cursor, ?_⟩
  simp only [scheduleFrames, List.map_cons, List.map_nil]
  rw [max_eq_right hb2b]
  norm_num [SAMPLE_RATE]

/-- Witness for C3: concrete cursor, frame list and arrival times. -/
theorem playback_monotonicity_witness :
    (∀ t ∈ scheduleFrames 0 [((0 : ℚ), (2 : ℚ) / 5), (1 / 2, 1 / 5)], t.1 ≤ t.2.2)
    ∧ List.Chain' (fun a b => a.2.2 + a.2.1 ≤ b.2.2)
        (scheduleFrames 0 [((0 : ℚ), (2 : ℚ) / 5), (1 / 2, 1 / 5)])
    ∧ (scheduleFrames 0
        [((1 : ℚ), 9600 / (SAMPLE_RATE : ℚ)), (5 / 4, 9600 / (SAMPLE_RATE : ℚ))]).map
          (fun t => t.2.2) =
        [max 1 0, max 1 0 + 400 / 1000] :=
  playback_monotonicity 0 [(0, 2 / 5), (1 / 2, 1 / 5)]
    (by norm_num) 1 (5 / 4)
    (by rw [show max (1 : ℚ) 0 = 1 from max_eq_left (by norm_num)]
        norm_num [SAMPLE_RATE])

/-! ## Presentation store and session state machine

The state of `VoiceSessionProvider` (its refs and React state) together
with the slice of `usePresentationStore` the provider reads and
mutates.  Platform resource objects (WebSocket, AudioContext,
MediaStream, AudioWorkletNode) are modelled as generation numbers drawn
from a fresh-handle counter; the multiset of not-yet-closed sockets and
still-connected worklet nodes is tracked explicitly so that "exactly
one open transport" is expressible.  All session transitions are
run-to-completion, matching the single-threaded callback model. -/

/-- The voice-activity states written through `setVoiceState`. -/
inductive VoiceState
  | idle
  | processing
  | listening
  | speaking
  deriving DecidableEq, Repr

/-- The slice of the presentation store used by the session core:
`slides.length`, `currentIndex` and `voiceState` (slide contents are
external data the core never touches). -/
structure PresentationStore where
  slidesLen : Nat
  currentIndex : Nat
  voiceState : VoiceState
  deriving DecidableEq, Repr

namespace PresentationStore

/-- Store action `goToSlide(index)`: set `currentIndex` when
`index >= 0 && index < slides.length`, otherwise leave the state
unchanged. -/
def goToSlide (st : PresentationStore) (index : Int) : PresentationStore :=
  if 0 ≤ index ∧ index < (st.slidesLen : Int) then
    { st with currentIndex := index.toNat }
  else st

/-- Store action `setVoiceState(state)`. -/
def setVoiceState (st : PresentationStore) (v : VoiceState) : PresentationStore :=
  { st with voiceState := v }

end PresentationStore

/-- The provider's mutable state: `isActiveRef` (kept in lockstep with
the `isActive` React state), the `error` React state, the six refs, the
presentation-store slice, a log of sources scheduled by `playAudio`
(context generation, start time, duration), the multisets of open
sockets and connected worklet nodes, and the fresh-handle counter. -/
structure SessionState where
  isActive : Bool
  error : Option String
  ws : Option Nat
  audioContext : Option Nat
  stream : Option Nat
  workletNode : Option Nat
  playbackContext : Option Nat
  nextPlayTime : ℚ
  scheduled : List (Nat × ℚ × ℚ)
  openSockets : List Nat
  activeWorklets : List Nat
  nextGen : Nat
  store : PresentationStore
  deriving DecidableEq, Repr

/-- Source `playAudio(base64Audio)` at device time `now =
ctx.currentTime`: lazily create the playback context if absent, decode
the payload, build a source of duration `pcm16.length / SAMPLE_RATE`,
start it at `max(ctx.currentTime, nextPlayTimeRef.current)` and advance
the cursor.  The `Bool` is `false` when decoding threw (after the lazy
context creation, which the source performs first); the exception then
propagates to `handleMessage`'s catch. -/
def playAudio (st : SessionState) (now : ℚ) (base64Audio : List Nat) :
    SessionState × Bool :=
  let st :=
    if st.playbackContext = none then
      { st with playbackContext := some st.nextGen, nextGen := st.nextGen + 1 }
    else st
  match base64ToInt16Array base64Audio with
  | none => (st, false)
  | some pcm16 =>
      let ctx := st.playbackContext.getD 0
      let dur : ℚ := (pcm16.length : ℚ) / (SAMPLE_RATE : ℚ)
      let startTime := max now st.nextPlayTime
      ({ st with
          scheduled := st.scheduled ++ [(ctx, startTime, dur)],
          nextPlayTime := startTime + dur }, true)

/-- Source `cleanup()`: disconnect and null the worklet node, close and
null the capture context, stop the stream's tracks and null it, close
and null the playback context, and zero the playback cursor.  Each step
is guarded by a null check. -/
def cleanup (st : SessionState) : SessionState :=
  let st :=
    match st.workletNode with
    | some w => { st with workletNode := none,
                          activeWorklets := st.activeWorklets.erase w }
    | none => st
  let st :=
    match st.audioContext with
    | some _ => { st with audioContext := none }
    | none => st
  let st :=
    match st.stream with
    | some _ => { st with stream := none }
    | none => st
  let st :=
    match st.playbackContext with
    | some _ => { st with playbackContext := none }
    | none => st
  { st with nextPlayTime := 0 }

/-- Source `stop()`: clear `isActiveRef`, send `session.stop` and close
the socket when it is open, null the socket ref, run `cleanup`, clear
the React active flag and set the voice state to idle. -/
def stop (st : SessionState) : SessionState :=
  let st := { st with isActive := false }
  let st :=
    match st.ws with
    | some w => { st with openSockets := st.openSockets.erase w, ws := none }
    | none => { st with ws := none }
  let st := cleanup st
  { st with store := st.store.setVoiceState .idle }

/-- The parsed inbound server events dispatched by `handleMessage`:
the seven handled tags, `transcript`, and any unhandled type tag
(which falls through the `switch` with no case). -/
inductive ServerMsg
  | sessionStarted (sessionId : String)
  | sessionStopped
  | audioOutput (audio : List Nat)
  | audioDone
  | audioInterrupted
  | slideChanged (slideId : Int)
  | transcript (speaker text : String)
  | serverError (message : String)
  | unhandled (tag : String)

/-- Source `handleMessage` on a message that parsed as JSON, at device
time `now`: the `switch` over `data.type`.  An exception thrown by
`playAudio` is caught by the surrounding `try`/`catch` (which only
logs), so the `setVoiceState("speaking")` that follows it is skipped
and the frame is dropped. -/
def handleMessage (st : SessionState) (now : ℚ) : ServerMsg → SessionState
  | .sessionStarted _ => { st with store := st.store.setVoiceState .speaking }
  | .sessionStopped => { st with store := st.store.setVoiceState .idle }
  | .audioOutput audio =>
      let r := playAudio st now audio
      if r.2 then { r.1 with store := r.1.store.setVoiceState .speaking }
      else r.1
  | .audioDone => { st with store := st.store.setVoiceState .listening }
  | .audioInterrupted =>
      let st :=
        if st.playbackContext.isSome then
          { st with playbackContext := none, nextPlayTime := 0 }
        else st
      { st with store := st.store.setVoiceState .listening }
  | .slideChanged slideId => { st with store := st.store.goToSlide (slideId - 1) }
  | .transcript _ _ => st
  | .serverError message => { st with error := some message }
  | .unhandled _ => st

/-- Source `ws.onclose`: fires once the underlying socket is closed;
when `isActiveRef` is still set it clears the active flags, sets the
voice state to idle and runs `cleanup`.  No error is recorded on this
path. -/
def handleClose (st : SessionState) : SessionState :=
  let st :=
    match st.ws with
    | some w => { st with openSockets := st.openSockets.erase w }
    | none => st
  if st.isActive then
    cleanup { st with isActive := false, store := st.store.setVoiceState .idle }
  else st

/-- Source `startAudioCapture` success path: acquire a fresh microphone
stream, a fresh capture `AudioContext`, and a fresh connected
`AudioWorkletNode`. -/
def startAudioCapture (st : SessionState) : SessionState :=
  let st := { st with stream := some st.nextGen, nextGen := st.nextGen + 1 }
  let st := { st with audioContext := some st.nextGen, nextGen := st.nextGen + 1 }
  { st with workletNode := some st.nextGen,
            activeWorklets := st.nextGen :: st.activeWorklets,
            nextGen := st.nextGen + 1 }

/-- Source `start()` success path: a second `start` while `isActiveRef`
is set returns immediately ("Already active, ignoring start");
otherwise clear the error, set the voice state to processing, open a
fresh WebSocket (handshake succeeds within the timeout), attach the
message and close handlers, start audio capture, send `session.start`,
and mark the session active. -/
def start (st : SessionState) : SessionState :=
  if st.isActive then st
  else
    let st := { st with error := none,
                        store := st.store.setVoiceState .processing }
    let st := { st with ws := some st.nextGen,
                        openSockets := st.nextGen :: st.openSockets,
                        nextGen := st.nextGen + 1 }
    let st := startAudioCapture st
    { st with isActive := true }

/-- The scheduled sources that can still produce audible output: those
created on the context that is still the live playback context
(closing an `AudioContext` permanently silences every source created
on it). -/
def pendingOutput (st : SessionState) : List (Nat × ℚ × ℚ) :=
  st.scheduled.filter fun f => decide (st.playbackContext = some f.1)

/-- The provider's initial state: no session, no resources, cursor 0,
idle store. -/
def initialState : SessionState where
  isActive := false
  error := none
  ws := none
  audioContext := none
  stream := none
  workletNode := none
  playbackContext := none
  nextPlayTime := 0
  scheduled := []
  openSockets := []
  activeWorklets := []
  nextGen := 0
  store := { slidesLen := 0, currentIndex := 0, voiceState := .idle }

/-- A concrete mid-session state: active and listening, all capture
resources held, a playback context with two 400 ms frames scheduled
but not finished. -/
def activeState : SessionState where
  isActive := true
  error := none
  ws := some 0
  audioContext := some 2
  stream := some 1
  workletNode := some 3
  playbackContext := some 4
  nextPlayTime := 4 / 5
  scheduled := [(4, 0, 2 / 5), (4, 2 / 5, 2 / 5)]
  openSockets := [0]
  activeWorklets := [3]
  nextGen := 5
  store := { slidesLen := 3, currentIndex := 1, voiceState := .listening }

lemma cleanup_null_handles (st : SessionState) :
    (cleanup st).workletNode = none ∧ (cleanup st).audioContext = none
    ∧ (cleanup st).stream = none ∧ (cleanup st).playbackContext = none
    ∧ (cleanup st).nextPlayTime = 0 := by
  obtain ⟨act, err, ws, ac, sm, wn, pc, npt, sch, os, aw, ng, sto⟩ := st
  cases wn <;> cases ac <;> cases sm <;> cases pc <;> simp [cleanup]

lemma cleanup_keeps (st : SessionState) :
    (cleanup st).isActive = st.isActive ∧ (cleanup st).error = st.error
    ∧ (cleanup st).ws = st.ws ∧ (cleanup st).openSockets = st.openSockets
    ∧ (cleanup st).store = st.store := by
  obtain ⟨act, err, ws, ac, sm, wn, pc, npt, sch, os, aw, ng, sto⟩ := st
  cases wn <;> cases ac <;> cases sm <;> cases pc <;> simp [cleanup]

/-- C7.  Cleanup idempotence: on every state — in particular when any
subset of the worklet node, capture context, media stream and playback
context was never acquired — `cleanup` is a total function (none of its
null-guarded steps can throw), it leaves all four resource handles null
and the playback cursor at 0, and running it a second time changes
nothing at all. -/
theorem cleanup_idempotent (st : SessionState) :
    (cleanup st).workletNode = none ∧ (cleanup st).audioContext = none
    ∧ (cleanup st).stream = none ∧ (cleanup st).playbackContext = none
    ∧ (cleanup st).nextPlayTime = 0
    ∧ cleanup (cleanup st) = cleanup st := by
  obtain ⟨act, err, ws, ac, sm, wn, pc, npt, sch, os, aw, ng, sto⟩ := st
  cases wn <;> cases ac <;> cases sm <;> cases pc <;> simp [cleanup]

/-- C5.  Single-session invariant: a `start()` while `isActiveRef` is
set is a no-op, and calling `start()` twice from the initial state with
no intervening `stop()` leaves exactly one open transport and exactly
one connected capture worklet — the second call changes nothing. -/
theorem single_session :
    (∀ st : SessionState, st.isActive = true → start st = st)
    ∧ (start (start initialState)).openSockets.length = 1
    ∧ (start (start initialState)).activeWorklets.length = 1
    ∧ start (start initialState) = start initialState := by
  have hguard : ∀ st : SessionState, st.isActive = true → start st = st := by
    intro st h
    simp [start, h]
  have hact : (start initialState).isActive = true := by decide
  have hsecond : start (start initialState) = start initialState :=
    hguard _ hact
  refine ⟨hguard, ?_, ?_, hsecond⟩
  · rw [hsecond]; decide
  · rw [hsecond]; decide

/-- Witness for C5: the no-op guard applied at a concrete active
state. -/
theorem single_session_witness :
    start { initialState with isActive := true } =
      { initialState with isActive := true } :=
  single_session.1 { initialState with isActive := true } rfl

/-- C6 (amended).  Unplanned transport close: when the socket's close
event fires while the session is active, the session is deactivated,
the voice-activity state is reset to idle, full cleanup runs (capture
stream, capture context, worklet and playback context all released,
cursor zeroed) — but no error is recorded: the `error` state is left
exactly as it was, the same as on a clean stop. -/
theorem transport_close_cleanup (st : SessionState) (h : st.isActive = true) :
    (handleClose st).isActive = false
    ∧ (handleClose st).store.voiceState = .idle
    ∧ (handleClose st).stream = none
    ∧ (handleClose st).workletNode = none
    ∧ (handleClose st).audioContext = none
    ∧ (handleClose st).playbackContext = none
    ∧ (handleClose st).nextPlayTime = 0
    ∧ (handleClose st).error = st.error := by
  have hmid : ∀ st2 : SessionState,
      (cleanup st2).isActive = st2.isActive ∧ (cleanup st2).error = st2.error
      ∧ (cleanup st2).store = st2.store := fun st2 =>
    ⟨(cleanup_keeps st2).1, (cleanup_keeps st2).2.1, (cleanup_keeps st2).2.2.2.2⟩
  cases hw : st.ws with
  | none =>
      simp only [handleClose, hw, h, if_true]
      refine ⟨?_, ?_, (cleanup_null_handles _).2.2.1, (cleanup_null_handles _).1,
        (cleanup_null_handles _).2.1, (cleanup_null_handles _).2.2.2.1,
        (cleanup_null_handles _).2.2.2.2, ?_⟩
      · rw [(hmid _).1]
      · rw [(hmid _).2.2]; rfl
      · rw [(hmid _).2.1]
  | some w =>
      simp only [handleClose, hw, h, if_true]
      refine ⟨?_, ?_, (cleanup_null_handles _).2.2.1, (cleanup_null_handles _).1,
        (cleanup_null_handles _).2.1, (cleanup_null_handles _).2.2.2.1,
        (cleanup_null_handles _).2.2.2.2, ?_⟩
      · rw [(hmid _).1]
      · rw [(hmid _).2.2]; rfl
      · rw [(hmid _).2.1]

/-- Witness for C6's amended theorem at the concrete active/listening
state. -/
theorem transport_close_cleanup_witness :
    (handleClose activeState).isActive = false
    ∧ (handleClose activeState).store.voiceState = .idle
    ∧ (handleClose activeState).stream = none
    ∧ (handleClose activeState).workletNode = none
    ∧ (handleClose activeState).audioContext = none
    ∧ (handleClose activeState).playbackContext = none
    ∧ (handleClose activeState).nextPlayTime = 0
    ∧ (handleClose activeState).error = activeState.error :=
  transport_close_cleanup activeState rfl

/-- Counterexample for C6 as stated: the close of the transport while
active and listening performs the cleanup but records no error — the
`error` state stays `none`, indistinguishable from a clean stop, so the
close is not "reported as an error state". -/
theorem transport_close_counterexample :
    activeState.isActive = true
    ∧ activeState.store.voiceState = .listening
    ∧ (handleClose activeState).error = none := by
  decide

/-- C4.  Interruption (barge-in): when an `audio.interrupted` event is
handled while a playback context is live, every source scheduled on it
is silenced (no scheduled frame can produce further output), the
context handle is dropped, the playback cursor is reset to 0, and the
voice state becomes listening; the next `playAudio` allocates a fresh
playback context and — the cursor being 0 — schedules its frame to
start exactly at the device's "now". -/
theorem audio_interrupted_barge_in (st : SessionState) (now now2 : ℚ)
    (audio : List Nat) (pcm : List Int)
    (h : st.playbackContext.isSome = true) (h2 : 0 ≤ now2)
    (hdec : base64ToInt16Array audio = some pcm) :
    pendingOutput (handleMessage st now .audioInterrupted) = []
    ∧ (handleMessage st now .audioInterrupted).playbackContext = none
    ∧ (handleMessage st now .audioInterrupted).nextPlayTime = 0
    ∧ (handleMessage st now .audioInterrupted).scheduled = st.scheduled
    ∧ (handleMessage st now .audioInterrupted).store.voiceState = .listening
    ∧ (playAudio (handleMessage st now .audioInterrupted) now2 audio).1.playbackContext
        = some (handleMessage st now .audioInterrupted).nextGen
    ∧ (playAudio (handleMessage st now .audioInterrupted) now2 audio).1.scheduled
        = st.scheduled ++ [((handleMessage st now .audioInterrupted).nextGen, now2,
            (pcm.length : ℚ) / (SAMPLE_RATE : ℚ))] := by
  have hshape : handleMessage st now .audioInterrupted =
      { st with playbackContext := none, nextPlayTime := 0,
                store := st.store.setVoiceState .listening } := by
    simp [handleMessage, h]
  rw [hshape]
  refine ⟨?_, rfl, rfl, rfl, rfl, ?_, ?_⟩
  · simp [pendingOutput]
  · simp [playAudio, hdec]
  · simp [playAudio, hdec, PresentationStore.setVoiceState]
    exact h2

/-- Witness for C4 at the concrete mid-playback state, with a payload
decoding to one sample. -/
theorem audio_interrupted_witness :
    pendingOutput (handleMessage activeState 1 .audioInterrupted) = []
    ∧ (handleMessage activeState 1 .audioInterrupted).playbackContext = none
    ∧ (handleMessage activeState 1 .audioInterrupted).nextPlayTime = 0
    ∧ (playAudio (handleMessage activeState 1 .audioInterrupted) 2
        [65, 65, 65, 61]).1.scheduled
        = activeState.scheduled ++
          [((handleMessage activeState 1 .audioInterrupted).nextGen, 2,
            ((1 : Nat) : ℚ) / (SAMPLE_RATE : ℚ))] := by
  have h := audio_interrupted_barge_in activeState 1 2 [65, 65, 65, 61] [0]
    rfl (by norm_num) (by decide)
  exact ⟨h.1, h.2.1, h.2.2.1, h.2.2.2.2.2.2⟩

/-- C8 (amended).  Malformed audio payload: when an `audio.output`
message's payload fails to decode, the exception is caught, the frame
is dropped (nothing is scheduled, the cursor does not move), and the
session is untouched — active flag, store (voice state and slide
index), error, transport and capture handles all unchanged; when a
playback context already existed the state is entirely unchanged, but
when none existed yet, the lazily created playback context (allocated
before decoding) remains behind. -/
theorem malformed_audio_recoverable (st : SessionState) (now : ℚ)
    (audio : List Nat) (hdec : base64ToInt16Array audio = none) :
    (handleMessage st now (.audioOutput audio)).isActive = st.isActive
    ∧ (handleMessage st now (.audioOutput audio)).store = st.store
    ∧ (handleMessage st now (.audioOutput audio)).error = st.error
    ∧ (handleMessage st now (.audioOutput audio)).ws = st.ws
    ∧ (handleMessage st now (.audioOutput audio)).openSockets = st.openSockets
    ∧ (handleMessage st now (.audioOutput audio)).stream = st.stream
    ∧ (handleMessage st now (.audioOutput audio)).audioContext = st.audioContext
    ∧ (handleMessage st now (.audioOutput audio)).workletNode = st.workletNode
    ∧ (handleMessage st now (.audioOutput audio)).activeWorklets = st.activeWorklets
    ∧ (handleMessage st now (.audioOutput audio)).scheduled = st.scheduled
    ∧ (handleMessage st now (.audioOutput audio)).nextPlayTime = st.nextPlayTime
    ∧ (st.playbackContext.isSome = true → handleMessage st now (.audioOutput audio) = st)
    ∧ (st.playbackContext = none →
        (handleMessage st now (.audioOutput audio)).playbackContext = some st.nextGen) := by
  cases hp : st.playbackContext with
  | none => simp [handleMessage, playAudio, hdec, hp]
  | some g => simp [handleMessage, playAudio, hdec, hp]

/-- Witness for C8's amended theorem: a valid-base64 payload of one
byte (odd length) on the concrete active state, whose playback context
already exists, leaves the state entirely unchanged. -/
theorem malformed_audio_recoverable_witness :
    base64ToInt16Array [81, 81, 61, 61] = none
    ∧ handleMessage activeState 0 (.audioOutput [81, 81, 61, 61]) = activeState := by
  refine ⟨by decide, ?_⟩
  exact (malformed_audio_recoverable activeState 0 [81, 81, 61, 61]
    (by decide)).2.2.2.2.2.2.2.2.2.2.2.1 rfl

/-- Counterexample for C8 as stated: with no playback context yet, an
`audio.output` whose payload is valid base64 of odd byte length fails
to decode, yet handling it changes a resource handle — the lazily
created playback context appears before the decode throws. -/
theorem malformed_audio_counterexample :
    base64ToInt16Array [81, 81, 61, 61] = none
    ∧ { activeState with playbackContext := none }.playbackContext = none
    ∧ (handleMessage { activeState with playbackContext := none } 0
        (.audioOutput [81, 81, 61, 61])).playbackContext
      ≠ { activeState with playbackContext := none }.playbackContext := by
  decide

/-- C9 (amended).  Slide navigation: a `slide.changed` event with
1-based `slide_id` invokes the store's `goToSlide` with the zero-based
index `slide_id - 1` (`slide_id = 3` navigates to index 2 whenever the
deck has at least 3 slides), and `goToSlide` with an index outside the
valid range is a silent no-op — the store is left unchanged rather than
clamped or failed. -/
theorem slide_changed_navigation (st : SessionState) (s i : Int) (now : ℚ) :
    handleMessage st now (.slideChanged s) =
      { st with store := st.store.goToSlide (s - 1) }
    ∧ (3 ≤ st.store.slidesLen →
        (handleMessage st now (.slideChanged 3)).store.currentIndex = 2)
    ∧ (¬ (0 ≤ i ∧ i < (st.store.slidesLen : Int)) → st.store.goToSlide i = st.store)
    ∧ ((0 ≤ i ∧ i < (st.store.slidesLen : Int)) →
        (st.store.goToSlide i).currentIndex = i.toNat) := by
  refine ⟨rfl, ?_, ?_, ?_⟩
  · intro h3
    show (st.store.goToSlide ((3 : Int) - 1)).currentIndex = 2
    have hval : ((3 : Int) - 1) = 2 := by norm_num
    rw [hval]
    simp only [PresentationStore.goToSlide]
    rw [if_pos ⟨by norm_num,
      by exact_mod_cast (show 2 < st.store.slidesLen by omega)⟩]
    rfl
  · intro hout
    simp [PresentationStore.goToSlide, hout]
  · intro hin
    simp [PresentationStore.goToSlide, hin]

/-- Witness for C9's amended theorem: `slide_id = 3` on a 3-slide deck
navigates to index 2, and index 5 is silently ignored. -/
theorem slide_changed_navigation_witness :
    handleMessage activeState 0 (.slideChanged 3) =
      { activeState with store := activeState.store.goToSlide 2 }
    ∧ (handleMessage activeState 0 (.slideChanged 3)).store.currentIndex = 2
    ∧ activeState.store.goToSlide 5 = activeState.store :=
  ⟨(slide_changed_navigation activeState 3 5 0).1,
   (slide_changed_navigation activeState 3 5 0).2.1 (by decide),
   (slide_changed_navigation activeState 3 5 0).2.2.1 (by decide)⟩

/-- Counterexample for C9 as stated: on a 3-slide deck at index 1,
`goToSlide 5` does not clamp to the top of the valid range (index 2):
it leaves the index at 1 — out-of-range indices are ignored, not
clamped. -/
theorem goToSlide_counterexample :
    activeState.store.slidesLen = 3
    ∧ activeState.store.currentIndex = 1
    ∧ (activeState.store.goToSlide 5).currentIndex = 1
    ∧ (activeState.store.goToSlide 5).currentIndex ≠ 2 := by
  decide

/-- C10.  Frame effect of `transcript` and unhandled type tags: for
every session state, handling a parsed message whose tag is
`transcript` or is none of the handled tags leaves the entire state
unchanged — no session transition, no playback scheduling, no
presentation-store mutation, no error recorded (such messages are at
most logged). -/
theorem unhandled_message_no_effect (st : SessionState) (now : ℚ)
    (speaker text tag : String) :
    handleMessage st now (.transcript speaker text) = st
    ∧ handleMessage st now (.unhandled tag) = st :=
  ⟨rfl, rfl⟩

end SlideVoice
